import Mathlib

/-!
# Verification of the crocodile geospatial aggregation pipeline

A shallow embedding of the data pipeline of the repository
(`src/app.py`, `src/visualization.py`, `src/components.py`):
cleaning of occurrence tables, species filtering, the spatial join
against country boundaries, per-country species richness, the
per-species occurrence counts, and the choropleth colour-scale domain.

Table cells carry opaque payloads (the pipeline only moves, selects and
drops values, never computes with them), point and polygon geometry is
embedded with integer coordinates and axis-aligned rectangles — enough
to express the `within` (strict interior) versus `intersects` (boundary
included) distinction that the spatial predicates of `gpd.sjoin` make.
-/

namespace Croc

/-- A cell of a tabular dataset: either missing (pandas null / NaN) or a
present value.  The payload is an opaque string since the cleaning code
only selects, renames and carries cells, never computes with them. -/
inductive Cell where
  | null : Cell
  | val : String → Cell
deriving DecidableEq, Repr

/-- A pandas / geopandas data frame: column names plus rows, each row
holding one cell per column, positionally. -/
structure DataFrame where
  cols : List String
  rows : List (List Cell)
deriving DecidableEq, Repr

/-- Resolve each requested column name to its index in `cols`; `none` as
soon as one is absent (pandas raises `KeyError`). -/
def mapIdx? (cols : List String) : List String → Option (List Nat)
  | [] => some []
  | c :: cs =>
    match cols.findIdx? (· == c), mapIdx? cols cs with
    | some i, some is => some (i :: is)
    | _, _ => none

/-- `df.loc[:, cs]`: select the named columns, in the given order.  A
missing column is a pandas `KeyError`, modelled as `none`. -/
def selectColumns (df : DataFrame) (cs : List String) : Option DataFrame :=
  (mapIdx? df.cols cs).map fun idxs =>
    { cols := cs, rows := df.rows.map fun r => idxs.map fun i => r.getD i Cell.null }

/-- The column renaming applied by `clean_crocodile_data`
(src/app.py lines 77-84). -/
def renameCol (c : String) : String :=
  if c == "species" then "Especie"
  else if c == "acceptedScientificName" then "Nombre científico"
  else if c == "decimalLatitude" then "Latitud"
  else if c == "decimalLongitude" then "Longitud"
  else c

/-- The columns kept by `clean_crocodile_data` (src/app.py lines 69-75). -/
def cleanColumns : List String :=
  ["species", "acceptedScientificName", "decimalLatitude", "decimalLongitude", "geometry"]

/-- `clean_crocodile_data` (src/app.py lines 67-102): select the five
relevant columns and rename them to display names.  The input is already
a `GeoDataFrame`, so the `match` falls through, and the trailing
`GeoDataFrame` re-wrap keeps rows, columns and values unchanged; the
function drops no rows and contains no null filtering. -/
def clean_crocodile_data (df : DataFrame) : Option DataFrame :=
  (selectColumns df cleanColumns).map fun d => { cols := d.cols.map renameCol, rows := d.rows }

/-- Cell of row `i`, column `c` of a data frame. -/
def getCell (df : DataFrame) (i : Nat) (c : String) : Option Cell :=
  (df.cols.findIdx? (· == c)).bind fun j => df.rows[i]?.bind fun r => r[j]?

/-- A raw occurrence table whose single row has a missing species value
and a missing latitude. -/
def exRawNullSpecies : DataFrame :=
  { cols := cleanColumns ++ ["gbifID"],
    rows := [[Cell.null, Cell.val "Crocodylus acutus", Cell.null,
              Cell.val "-84.2", Cell.val "POINT (-84.2 10.1)", Cell.val "1010"]] }

/-- A point geometry.  Coordinates are embedded as integers: the claims
only depend on the point-in-polygon relation, never on coordinate
arithmetic. -/
structure GeoPoint where
  x : Int
  y : Int
deriving DecidableEq, Repr

/-- A country boundary row: the `NAME` / `ADMIN` join key and the polygon,
embedded as the axis-aligned rectangle `[x1,x2] × [y1,y2]` — enough
geometry to express the interior/boundary distinction between the
`within` and `intersects` join predicates.  Geometry is non-null, per the
boundary loader invariant, so `dropna(subset=["geometry"])` is the
identity. -/
structure Country where
  name : String
  x1 : Int
  y1 : Int
  x2 : Int
  y2 : Int
deriving DecidableEq, Repr

/-- A cleaned occurrence row, with the display columns produced by
`clean_crocodile_data`.  Nullable fields stay nullable (the cleaner drops
nothing); `geom` is `none` when the coordinates were missing, in which
case the derived point is empty/NaN and satisfies no spatial predicate. -/
structure OccRow where
  especie : Option String
  nombreCientifico : Option String
  geom : Option GeoPoint
deriving DecidableEq, Repr

/-- The two spatial predicates the repository passes to `gpd.sjoin`. -/
inductive SPredicate where
  | intersects
  | within
deriving DecidableEq, Repr

/-- Predicate evaluation: `within` is the strict interior of the polygon,
`intersects` also matches the boundary. -/
def predHolds : SPredicate → GeoPoint → Country → Bool
  | .intersects, p, c => decide (c.x1 ≤ p.x ∧ p.x ≤ c.x2 ∧ c.y1 ≤ p.y ∧ p.y ≤ c.y2)
  | .within, p, c => decide (c.x1 < p.x ∧ p.x < c.x2 ∧ c.y1 < p.y ∧ p.y < c.y2)

/-- Whether an occurrence row is related to a country under the given
predicate; rows without geometry match nothing. -/
def rowMatches (pred : SPredicate) (o : OccRow) (c : Country) : Bool :=
  match o.geom with
  | none => false
  | some p => predHolds pred p c

/-- `gpd.sjoin(left, right, how="inner", predicate=pred)`: every left row
paired with every right row related to it, in left-major order. -/
def sjoin (pred : SPredicate) (occ : List OccRow) (countries : List Country) :
    List (OccRow × Country) :=
  occ.flatMap fun o => (countries.filter fun c => rowMatches pred o c).map fun c => (o, c)

/-- An occurrence `GeoDataFrame` together with its CRS tag. -/
structure OccTable where
  crs : String
  rows : List OccRow
deriving DecidableEq, Repr

/-- A country-boundary `GeoDataFrame` together with its CRS tag. -/
structure CountryTable where
  crs : String
  rows : List Country
deriving DecidableEq, Repr

/-- `gpd.sjoin` with its CRS pre-check.  In geopandas, `_basic_checks`
only emits a `UserWarning` when the two CRS differ (recorded here in the
boolean component) and the join then proceeds to evaluate the predicate;
no exception is raised for a CRS mismatch, so the result is always
`Except.ok`. -/
def sjoinChecked (pred : SPredicate) (left : OccTable) (right : CountryTable) :
    Except String (Bool × List (OccRow × Country)) :=
  .ok (left.crs != right.crs, sjoin pred left.rows right.rows)

/-- The join predicate of the app choropleth path
(src/app.py line 183). -/
def appChoroplethPredicate : SPredicate := .intersects

/-- The join predicate of the visualization-module choropleth path
(src/visualization.py line 78). -/
def vizChoroplethPredicate : SPredicate := .within

/-- The join predicate of the countries-with-presence metric
(src/components.py line 61). -/
def metricsCountryPredicate : SPredicate := .within

/-- `joined.groupby(name)["Especie"].nunique()` for one group: the number
of distinct non-null species among the join rows carrying the country
name `name` (pandas `nunique` drops nulls). -/
def nuniqueEspecie (joined : List (OccRow × Country)) (name : String) : Nat :=
  (((joined.filter fun pr => pr.2.name == name).filterMap fun pr => pr.1.especie).dedup).length

/-- The left-merge of the grouped per-country counts onto the full country
list followed by `fillna(0)`: one output row per country row, in country
order, zero for countries whose name heads no group. -/
def mergeRichness (countries : List Country) (joined : List (OccRow × Country)) :
    List (Country × Nat) :=
  countries.map fun c => (c, nuniqueEspecie joined c.name)

/-- The aggregation of `create_choropleth_map` in src/app.py
(lines 176-215): join with `intersects`; when the join is empty, warn and
return without drawing (`none`); otherwise group + `nunique`, left-merge
onto all countries, `fillna(0)`.  The `dropna(subset=["geometry"])` is
the identity since boundary geometry is non-null here by construction. -/
def appChoroplethRichness (occ : OccTable) (countries : CountryTable) :
    Option (List (Country × Nat)) :=
  let joined := sjoin appChoroplethPredicate occ.rows countries.rows
  if joined.isEmpty then none
  else some (mergeRichness countries.rows joined)

/-- The aggregation of `create_choropleth_map` in src/visualization.py
(lines 60-92): join with `within`, group by `ADMIN` + `nunique`,
left-merge onto all countries, `fillna(0)`; no empty-join early return. -/
def vizChoroplethRichness (occ : OccTable) (countries : CountryTable) :
    List (Country × Nat) :=
  mergeRichness countries.rows (sjoin vizChoroplethPredicate occ.rows countries.rows)

/-- The colour-scale domain of the app choropleth (src/app.py lines
220-227): the min/max of the per-country counts, widened when they
coincide — to `[0,1]` when the common value is `0`, else by `0.5` on each
side. -/
def appColorDomain (vmin vmax : ℚ) : ℚ × ℚ :=
  if vmin = vmax then
    if vmin = 0 then (0, 1) else (vmin - 1/2, vmax + 1/2)
  else (vmin, vmax)

/-- The colour-scale domain of the visualization-module choropleth
(src/visualization.py lines 101-110): the raw min/max, never widened. -/
def vizColorDomain (vmin vmax : ℚ) : ℚ × ℚ := (vmin, vmax)

/-- The species column of a table, nulls skipped — the multiset that
`value_counts` and `nunique` actually operate on. -/
def especies (rows : List OccRow) : List String := rows.filterMap (·.especie)

/-- First-seen deduplication, accumulating the keys already seen: the key
order produced by the insertion-ordered hash table that backs
`pandas.Series.value_counts`. -/
def firstSeenAux (seen : List String) : List String → List String
  | [] => []
  | s :: rest =>
    if seen.contains s then firstSeenAux seen rest
    else s :: firstSeenAux (s :: seen) rest

/-- The distinct values of a list, each at its first occurrence, in input
order. -/
def firstSeen (l : List String) : List String := firstSeenAux [] l

/-- Tag every element with its position, counting from `i`. -/
def withIdx : Nat → List String → List (String × Nat)
  | _, [] => []
  | i, s :: rest => (s, i) :: withIdx (i + 1) rest

/-- One row of the `value_counts` result: a species key, the position of
its first occurrence in the input, and its occurrence count. -/
structure SpeciesEntry where
  especie : String
  firstIdx : Nat
  registros : Nat
deriving DecidableEq, Repr

/-- The unsorted `value_counts` table: distinct non-null keys in
first-seen order, each with its occurrence count. -/
def keyedCounts (sp : List String) : List SpeciesEntry :=
  (withIdx 0 (firstSeen sp)).map fun p =>
    { especie := p.1, firstIdx := p.2, registros := sp.count p.1 }

/-- The sort order of `value_counts`: count descending, first-seen
position ascending on ties (the sort applied to the hash-table output
keeps equal-count keys in first-seen order). -/
def vcLE (a b : SpeciesEntry) : Prop :=
  b.registros < a.registros ∨ (a.registros = b.registros ∧ a.firstIdx ≤ b.firstIdx)

instance : DecidableRel vcLE := fun a b => by
  unfold vcLE
  infer_instance

instance : IsTotal SpeciesEntry vcLE := by
  constructor
  intro a b
  unfold vcLE
  omega

instance : IsTrans SpeciesEntry vcLE := by
  constructor
  intro a b c
  unfold vcLE
  omega

/-- `data["Especie"].value_counts()`: per-species occurrence counts over
the non-null species values, sorted by count descending, ties in
first-seen order. -/
def value_counts (rows : List OccRow) : List SpeciesEntry :=
  List.insertionSort vcLE (keyedCounts (especies rows))

/-- Number of distinct non-null species of a table. -/
def distinctSpeciesCount (rows : List OccRow) : Nat :=
  (firstSeen (especies rows)).length

/-- Number of distinct non-null species of an occurrence list, via
`dedup` (the count `nunique` computes). -/
def totalDistinctSpecies (occ : List OccRow) : Nat := ((especies occ).dedup).length

/-- `compute_species_counts` (src/app.py lines 105-119) and the
aggregation of `create_top_species_chart` (src/visualization.py lines
145-147): `value_counts`, rename to (species, count) display columns,
`head(top_n)`. -/
def compute_species_counts (rows : List OccRow) (top_n : Nat) : List (String × Nat) :=
  ((value_counts rows).take top_n).map fun e => (e.especie, e.registros)

/-- `data["Especie"].isin(sel)` for one row: null species are not in any
selection. -/
def especieIsin (sel : List String) (r : OccRow) : Bool :=
  match r.especie with
  | some s => sel.contains s
  | none => false

/-- The sidebar species filter (src/app.py line 306):
`data[data["Especie"].isin(selected_species)] if selected_species else
data` — an empty selection (falsy in Python) disables the filter. -/
def filteredData (sel : List String) (rows : List OccRow) : List OccRow :=
  if sel.isEmpty then rows else rows.filter fun r => especieIsin sel r

/-- The table `clean_crocodile_data` produces from `exRawNullSpecies`:
columns renamed, the null species and latitude cells still present. -/
def exCleanedNull : DataFrame :=
  { cols := ["Especie", "Nombre científico", "Latitud", "Longitud", "geometry"],
    rows := [[Cell.null, Cell.val "Crocodylus acutus", Cell.null,
              Cell.val "-84.2", Cell.val "POINT (-84.2 10.1)"]] }

/-- Claim C2, counterexample: cleaning a table whose single row has a null
species and a null latitude yields a table that still contains that row,
with the nulls in place — the cleaner does not restrict to rows whose
species, latitude and longitude are all non-null. -/
theorem clean_keeps_null_species_row :
    (clean_crocodile_data exRawNullSpecies).map (fun d => getCell d 0 "Especie") =
      some (some Cell.null) ∧
    (clean_crocodile_data exRawNullSpecies).map (fun d => getCell d 0 "Latitud") =
      some (some Cell.null) := by
  decide

/-- Claim C2, amended: cleaning selects and renames the five relevant
columns but filters nothing — on success the output has exactly as many
rows as the input (null species/latitude/longitude rows included) and its
columns are the renamed `cleanColumns`. -/
theorem clean_preserves_all_rows (df out : DataFrame)
    (h : clean_crocodile_data df = some out) :
    out.rows.length = df.rows.length ∧ out.cols = cleanColumns.map renameCol := by
  obtain ⟨d, hd, rfl⟩ := Option.map_eq_some'.mp h
  obtain ⟨idxs, hi, rfl⟩ := Option.map_eq_some'.mp hd
  exact ⟨List.length_map _ _, rfl⟩

/-- Witness for C2 at a concrete input: cleaning succeeds on
`exRawNullSpecies` and preserves its single (null-bearing) row. -/
theorem clean_preserves_all_rows_witness :
    clean_crocodile_data exRawNullSpecies = some exCleanedNull ∧
    (exCleanedNull.rows.length = exRawNullSpecies.rows.length ∧
     exCleanedNull.cols = cleanColumns.map renameCol) :=
  ⟨by decide, clean_preserves_all_rows exRawNullSpecies exCleanedNull (by decide)⟩

/-- Claim C5, counterexample: cleaning is not idempotent — re-cleaning the
cleaned `exRawNullSpecies` fails (pandas `KeyError` on the renamed
columns, modelled `none`), so `clean (clean x)` differs from `clean x`. -/
theorem clean_clean_fails_on_example :
    (clean_crocodile_data exRawNullSpecies).bind clean_crocodile_data = none ∧
    clean_crocodile_data exRawNullSpecies = some exCleanedNull := by
  decide

/-- Claim C5, amended: re-cleaning any successfully cleaned table fails
with a missing-column error, because cleaning renames the very columns it
selects; hence `clean (clean x)` is never equal to a successful
`clean x`. -/
theorem clean_not_idempotent (df out : DataFrame)
    (h : clean_crocodile_data df = some out) :
    clean_crocodile_data out = none := by
  obtain ⟨d, hd, rfl⟩ := Option.map_eq_some'.mp h
  obtain ⟨idxs, hi, rfl⟩ := Option.map_eq_some'.mp hd
  rfl

/-- Witness for C5 at a concrete input. -/
theorem clean_not_idempotent_witness :
    clean_crocodile_data exRawNullSpecies = some exCleanedNull ∧
    clean_crocodile_data exCleanedNull = none :=
  ⟨by decide, clean_not_idempotent exRawNullSpecies exCleanedNull (by decide)⟩

/-- A small cleaned table used to exercise the filter layer. -/
def exFilterRows : List OccRow :=
  [⟨some "Crocodylus acutus", none, none⟩, ⟨none, none, none⟩,
   ⟨some "Caiman crocodilus", none, none⟩]

/-- Claim C6: the species filter is a pure, order-preserving restriction —
an empty selection returns the input unchanged, the output is always a
sublist (hence order-preserving and no longer than the input), and under
a non-empty selection a row is kept exactly when it is an input row whose
species lies in the selection. -/
theorem filter_layer_spec (sel : List String) (rows : List OccRow) :
    (sel = [] → filteredData sel rows = rows) ∧
    (filteredData sel rows).Sublist rows ∧
    (filteredData sel rows).length ≤ rows.length ∧
    (sel ≠ [] → ∀ r, r ∈ filteredData sel rows ↔ r ∈ rows ∧ especieIsin sel r = true) := by
  have hsub : (filteredData sel rows).Sublist rows := by
    unfold filteredData
    split
    · exact List.Sublist.refl rows
    · exact List.filter_sublist rows
  refine ⟨fun h => by simp [filteredData, h], hsub, hsub.length_le, fun h r => ?_⟩
  have he : sel.isEmpty = false := by
    cases sel with
    | nil => exact absurd rfl h
    | cons a l => rfl
  simp [filteredData, he, List.mem_filter]

/-- Witness for C6 at concrete inputs: the empty selection is the
identity, and a singleton selection keeps only the matching row. -/
theorem filter_layer_spec_witness :
    filteredData [] exFilterRows = exFilterRows ∧
    (filteredData ["Crocodylus acutus"] exFilterRows).length ≤ exFilterRows.length ∧
    (⟨some "Crocodylus acutus", none, none⟩ : OccRow) ∈
      filteredData ["Crocodylus acutus"] exFilterRows :=
  ⟨(filter_layer_spec [] exFilterRows).1 rfl,
   (filter_layer_spec ["Crocodylus acutus"] exFilterRows).2.2.1,
   ((filter_layer_spec ["Crocodylus acutus"] exFilterRows).2.2.2 (by decide) _).mpr
     (by decide)⟩

/-- Claim C7, counterexample: the choropleth implementation in
src/visualization.py joins with `within`, not `intersects` — not every
choropleth path evaluates the `intersects` predicate. -/
theorem viz_choropleth_uses_within :
    vizChoroplethPredicate = SPredicate.within ∧
    vizChoroplethPredicate ≠ SPredicate.intersects := by
  decide

/-- Claim C7, amended: the src/app.py choropleth joins with `intersects`
and the country-count metric with `within` — predicates that genuinely
differ on boundary points (`within` implies `intersects`, not
conversely) — but the src/visualization.py choropleth also joins with
`within`, so only the app path preserves the claimed distinction. -/
theorem predicate_distinction :
    appChoroplethPredicate = SPredicate.intersects ∧
    metricsCountryPredicate = SPredicate.within ∧
    vizChoroplethPredicate = SPredicate.within ∧
    (∀ p c, predHolds SPredicate.within p c = true →
      predHolds SPredicate.intersects p c = true) ∧
    predHolds SPredicate.intersects ⟨0, 0⟩ ⟨"X", 0, 0, 4, 4⟩ = true ∧
    predHolds SPredicate.within ⟨0, 0⟩ ⟨"X", 0, 0, 4, 4⟩ = false := by
  refine ⟨rfl, rfl, rfl, ?_, by decide, by decide⟩
  intro p c h
  simp only [predHolds, decide_eq_true_eq] at h ⊢
  omega

/-- Witness for C7: an interior point satisfies both predicates. -/
theorem predicate_distinction_witness :
    predHolds SPredicate.within ⟨2, 2⟩ ⟨"X", 0, 0, 4, 4⟩ = true ∧
    predHolds SPredicate.intersects ⟨2, 2⟩ ⟨"X", 0, 0, 4, 4⟩ = true :=
  ⟨by decide, predicate_distinction.2.2.2.1 ⟨2, 2⟩ ⟨"X", 0, 0, 4, 4⟩ (by decide)⟩

/-- Occurrence table in the geographic CRS. -/
def exOccMismatch : OccTable :=
  ⟨"EPSG:4326", [⟨some "Crocodylus moreletii", none, some ⟨2, 2⟩⟩]⟩

/-- Boundary table in a different (projected) CRS. -/
def exCountriesMismatch : CountryTable := ⟨"EPSG:3857", [⟨"Belize", 0, 0, 4, 4⟩]⟩

/-- Claim C8, counterexample: with mismatched CRS the spatial join does
not fail — it returns a successful result in which the predicate has
already been evaluated (a matched pair is produced), with only a warning
flag; no SpatialJoinError is raised (the repository defines none). -/
theorem sjoin_crs_mismatch_no_error :
    exOccMismatch.crs ≠ exCountriesMismatch.crs ∧
    sjoinChecked SPredicate.intersects exOccMismatch exCountriesMismatch =
      Except.ok (true,
        [(⟨some "Crocodylus moreletii", none, some ⟨2, 2⟩⟩, ⟨"Belize", 0, 0, 4, 4⟩)]) :=
  ⟨by decide, rfl⟩

/-- Claim C8, amended: for every pair of tables with differing CRS, the
join emits the mismatch warning and proceeds to evaluate the predicate,
returning the join result successfully instead of raising. -/
theorem sjoin_crs_mismatch_warns (pred : SPredicate) (l : OccTable) (r : CountryTable)
    (h : l.crs ≠ r.crs) :
    sjoinChecked pred l r = Except.ok (true, sjoin pred l.rows r.rows) := by
  have hb : (l.crs != r.crs) = true := bne_iff_ne.mpr h
  simp [sjoinChecked, hb]

/-- Witness for C8 at a concrete mismatched pair. -/
theorem sjoin_crs_mismatch_warns_witness :
    exOccMismatch.crs ≠ exCountriesMismatch.crs ∧
    sjoinChecked SPredicate.within exOccMismatch exCountriesMismatch =
      Except.ok (true, sjoin SPredicate.within exOccMismatch.rows exCountriesMismatch.rows) :=
  ⟨by decide, sjoin_crs_mismatch_warns SPredicate.within _ _ (by decide)⟩

/-- Claim C9, counterexample: when all per-country counts are equal (min =
max = 2), the visualization-module choropleth keeps the degenerate domain
[2, 2] instead of widening it to [1.5, 2.5] as the claim requires of the
choropleth colour scale. -/
theorem viz_domain_not_widened :
    vizColorDomain 2 2 = (2, 2) ∧
    appColorDomain 2 2 = (3 / 2, 5 / 2) ∧
    vizColorDomain 2 2 ≠ appColorDomain 2 2 := by
  refine ⟨rfl, ?_, ?_⟩ <;> norm_num [appColorDomain, vizColorDomain]

/-- Claim C9, amended: the src/app.py choropleth widens the colour-scale
domain exactly as claimed — to [0,1] when min = max = 0, to
[min − ½, max + ½] when min = max ≠ 0, and leaves [min, max] otherwise —
and the widened domain is never degenerate; but the src/visualization.py
choropleth always uses the raw [min, max], unwidened. -/
theorem app_color_domain_spec (vmin vmax : ℚ) (h : vmin ≤ vmax) :
    (vmin = vmax → vmin = 0 → appColorDomain vmin vmax = (0, 1)) ∧
    (vmin = vmax → vmin ≠ 0 → appColorDomain vmin vmax = (vmin - 1 / 2, vmax + 1 / 2)) ∧
    (vmin ≠ vmax → appColorDomain vmin vmax = (vmin, vmax)) ∧
    (appColorDomain vmin vmax).1 < (appColorDomain vmin vmax).2 ∧
    vizColorDomain vmin vmax = (vmin, vmax) := by
  refine ⟨?_, ?_, ?_, ?_, rfl⟩
  · rintro rfl rfl
    simp [appColorDomain]
  · rintro rfl h2
    simp [appColorDomain, h2]
  · intro hne
    simp [appColorDomain, hne]
  · by_cases h1 : vmin = vmax
    · subst h1
      by_cases h2 : vmin = 0
      · subst h2
        norm_num [appColorDomain]
      · have he : appColorDomain vmin vmin = (vmin - 1 / 2, vmin + 1 / 2) := by
          simp [appColorDomain, h2]
        rw [he]
        show vmin - 1 / 2 < vmin + 1 / 2
        linarith
    · simp only [appColorDomain, if_neg h1]
      exact lt_of_le_of_ne h h1

/-- Witness for C9 at concrete values: distinct min/max pass through
unchanged and the all-zero case widens to [0, 1]. -/
theorem app_color_domain_spec_witness :
    (0 : ℚ) ≤ 3 ∧ appColorDomain 0 3 = (0, 3) ∧ appColorDomain 0 0 = (0, 1) :=
  ⟨by norm_num,
   (app_color_domain_spec 0 3 (by norm_num)).2.2.1 (by norm_num),
   (app_color_domain_spec 0 0 (by norm_num)).1 rfl rfl⟩

/-- A list's deduplication can only shrink when the list is a subset of
another. -/
theorem dedup_length_le_of_subset {α : Type} [DecidableEq α] {l1 l2 : List α}
    (h : l1 ⊆ l2) : l1.dedup.length ≤ l2.dedup.length := by
  rw [← List.card_toFinset, ← List.card_toFinset]
  exact Finset.card_le_card fun a ha => List.mem_toFinset.mpr (h (List.mem_toFinset.mp ha))

/-- Every row of a spatial join carries an occurrence row of the left
table. -/
theorem fst_mem_of_mem_sjoin {pred : SPredicate} {occ : List OccRow}
    {countries : List Country} {pr : OccRow × Country}
    (h : pr ∈ sjoin pred occ countries) : pr.1 ∈ occ := by
  rcases List.mem_flatMap.mp h with ⟨o, ho, hpr⟩
  rcases List.mem_map.mp hpr with ⟨c, _, heq⟩
  cases heq
  exact ho

/-- Claim C3: the per-country value of the spatial aggregator is the
cardinality of the set of distinct (non-null) species matched to that
country — duplicating a join row never changes any group's value — and
for any predicate and inputs it is bounded by the total number of
distinct species in the occurrence set. -/
theorem nunique_distinct_and_bounded (pred : SPredicate) (occ : List OccRow)
    (countries : List Country) (name : String) (pr : OccRow × Country)
    (joined : List (OccRow × Country)) :
    nuniqueEspecie (sjoin pred occ countries) name ≤ totalDistinctSpecies occ ∧
    nuniqueEspecie (pr :: pr :: joined) name = nuniqueEspecie (pr :: joined) name ∧
    nuniqueEspecie joined name =
      ((joined.filter fun q => q.2.name == name).filterMap fun q => q.1.especie).toFinset.card := by
  refine ⟨?_, ?_, (List.card_toFinset _).symm⟩
  · apply dedup_length_le_of_subset
    intro a ha
    rcases List.mem_filterMap.mp ha with ⟨q, hq, hqa⟩
    exact List.mem_filterMap.mpr
      ⟨q.1, fst_mem_of_mem_sjoin (List.mem_of_mem_filter hq), hqa⟩
  · by_cases hname : (pr.2.name == name) = true
    · cases hesp : pr.1.especie with
      | none => simp [nuniqueEspecie, List.filter_cons, hname, List.filterMap_cons, hesp]
      | some s =>
        simp [nuniqueEspecie, List.filter_cons, hname, List.filterMap_cons, hesp,
          List.dedup_cons_of_mem (List.mem_cons_self s _)]
    · simp [nuniqueEspecie, List.filter_cons, hname]

/-- An empty occurrence table in the geographic CRS. -/
def exEmptyOcc : OccTable := ⟨"EPSG:4326", []⟩

/-- A one-country boundary table. -/
def exOneCountry : CountryTable := ⟨"EPSG:4326", [⟨"Belize", 0, 0, 4, 4⟩]⟩

/-- Claim C1, counterexample: on an empty occurrence table the src/app.py
choropleth path returns its empty-join early exit (a warning, no
per-country table at all, modelled `none`) instead of one zero-count row
per boundary country. -/
theorem app_choropleth_empty_no_rows :
    appChoroplethRichness exEmptyOcc exOneCountry = none := rfl

/-- The left-merge keeps the full country list: its first components are
exactly the input countries, in order. -/
theorem mergeRichness_map_fst (countries : List Country) (joined : List (OccRow × Country)) :
    (mergeRichness countries joined).map Prod.fst = countries := by
  unfold mergeRichness
  rw [List.map_map]
  exact List.map_id' countries

/-- Claim C1, amended: the src/visualization.py aggregation always
returns exactly one row per boundary country, in order, with unmatched
country names filled with zero, and returns all-zero rows (without
erroring) on an empty occurrence table; the src/app.py path guarantees
one row per country only when it produces a table at all — on an empty
join it warns and returns no table. -/
theorem richness_one_row_per_country (occ : OccTable) (countries : CountryTable) :
    (vizChoroplethRichness occ countries).map Prod.fst = countries.rows ∧
    (occ.rows = [] →
      vizChoroplethRichness occ countries = countries.rows.map fun c => (c, 0)) ∧
    (∀ c ∈ countries.rows,
      (∀ pr ∈ sjoin vizChoroplethPredicate occ.rows countries.rows, pr.2.name ≠ c.name) →
      (c, 0) ∈ vizChoroplethRichness occ countries) ∧
    (∀ res, appChoroplethRichness occ countries = some res →
      res.map Prod.fst = countries.rows) := by
  refine ⟨?_, ?_, ?_, ?_⟩
  · exact mergeRichness_map_fst countries.rows _
  · intro h
    simp [vizChoroplethRichness, mergeRichness, sjoin, h, nuniqueEspecie]
  · intro c hc hnone
    have hz : nuniqueEspecie (sjoin vizChoroplethPredicate occ.rows countries.rows) c.name = 0 := by
      have hfil : (sjoin vizChoroplethPredicate occ.rows countries.rows).filter
          (fun q => q.2.name == c.name) = [] := by
        rw [List.filter_eq_nil_iff]
        intro pr hpr
        simpa using hnone pr hpr
      simp [nuniqueEspecie, hfil]
    exact List.mem_map.mpr ⟨c, hc, by rw [hz]⟩
  · intro res hres
    simp only [appChoroplethRichness] at hres
    split at hres
    · cases hres
    · cases hres
      exact mergeRichness_map_fst countries.rows _

/-- Witness for C1 at a concrete input: an empty occurrence table against
a one-country boundary table yields the single zero row. -/
theorem richness_one_row_per_country_witness :
    vizChoroplethRichness exEmptyOcc exOneCountry =
      exOneCountry.rows.map fun c => (c, 0) :=
  (richness_one_row_per_country exEmptyOcc exOneCountry).2.1 rfl

/-- First-seen deduplication only returns elements of its input. -/
theorem firstSeenAux_subset (seen l : List String) : firstSeenAux seen l ⊆ l := by
  induction l generalizing seen with
  | nil => exact fun a ha => absurd ha (List.not_mem_nil a)
  | cons s rest ih =>
    intro a ha
    simp only [firstSeenAux] at ha
    split at ha
    · exact List.mem_cons_of_mem _ (ih seen ha)
    · rcases List.mem_cons.mp ha with rfl | h'
      · exact List.mem_cons_self _ _
      · exact List.mem_cons_of_mem _ (ih _ h')

/-- `firstSeen` only returns elements of its input. -/
theorem firstSeen_subset (l : List String) : firstSeen l ⊆ l := firstSeenAux_subset [] l

/-- Position tagging preserves length. -/
theorem withIdx_length (i : Nat) (l : List String) : (withIdx i l).length = l.length := by
  induction l generalizing i with
  | nil => rfl
  | cons s rest ih => simp [withIdx, ih]

/-- Every tag produced from start position `i` is at least `i`. -/
theorem snd_ge_of_mem_withIdx {i : Nat} {l : List String} {p : String × Nat}
    (h : p ∈ withIdx i l) : i ≤ p.2 := by
  induction l generalizing i with
  | nil => cases h
  | cons s rest ih =>
    rcases List.mem_cons.mp h with rfl | h'
    · exact Nat.le_refl i
    · exact Nat.le_of_succ_le (ih h')

/-- Position tags are strictly increasing along the list. -/
theorem withIdx_pairwise (i : Nat) (l : List String) :
    (withIdx i l).Pairwise fun a b => a.2 < b.2 := by
  induction l generalizing i with
  | nil => exact List.Pairwise.nil
  | cons s rest ih =>
    refine List.Pairwise.cons (fun p hp => ?_) (ih (i + 1))
    exact Nat.lt_of_lt_of_le (Nat.lt_succ_self i) (snd_ge_of_mem_withIdx hp)

/-- The value of a position-tagged pair comes from the input list. -/
theorem fst_mem_of_mem_withIdx {i : Nat} {l : List String} {p : String × Nat}
    (h : p ∈ withIdx i l) : p.1 ∈ l := by
  induction l generalizing i with
  | nil => cases h
  | cons s rest ih =>
    rcases List.mem_cons.mp h with rfl | h'
    · exact List.mem_cons_self _ _
    · exact List.mem_cons_of_mem _ (ih h')

/-- The unsorted count table has one entry per distinct key. -/
theorem keyedCounts_length (sp : List String) :
    (keyedCounts sp).length = (firstSeen sp).length := by
  simp [keyedCounts, withIdx_length]

/-- First-seen positions in the unsorted count table strictly increase. -/
theorem keyedCounts_pairwise_idx (sp : List String) :
    (keyedCounts sp).Pairwise fun a b => a.firstIdx < b.firstIdx := by
  unfold keyedCounts
  rw [List.pairwise_map]
  exact withIdx_pairwise 0 _

/-- `value_counts` is a permutation of the unsorted count table. -/
theorem value_counts_perm (rows : List OccRow) :
    (value_counts rows).Perm (keyedCounts (especies rows)) :=
  List.perm_insertionSort vcLE _

/-- `value_counts` has exactly one entry per distinct non-null species. -/
theorem value_counts_length (rows : List OccRow) :
    (value_counts rows).length = distinctSpeciesCount rows := by
  rw [(value_counts_perm rows).length_eq, keyedCounts_length]
  rfl

/-- The rows of `value_counts` are strictly ordered: count descending,
first-seen position ascending on equal counts. -/
theorem value_counts_sorted (rows : List OccRow) :
    (value_counts rows).Pairwise fun a b =>
      b.registros < a.registros ∨ (a.registros = b.registros ∧ a.firstIdx < b.firstIdx) := by
  have hs : (value_counts rows).Pairwise vcLE := List.sorted_insertionSort vcLE _
  have hne : (value_counts rows).Pairwise fun a b => a.firstIdx ≠ b.firstIdx := by
    have hlt : (keyedCounts (especies rows)).Pairwise fun a b => a.firstIdx ≠ b.firstIdx :=
      (keyedCounts_pairwise_idx (especies rows)).imp fun h => Nat.ne_of_lt h
    exact ((value_counts_perm rows).pairwise_iff fun h => Ne.symm h).mpr hlt
  refine (hs.and hne).imp fun h => ?_
  rcases h with ⟨h1, h2⟩
  unfold vcLE at h1
  omega

/-- Claim C4: for every cleaned table and every n, the species aggregator
returns exactly `min n (number of distinct species)` rows; the underlying
`value_counts` rows — and hence any `head`-prefix of them — are ordered
by count descending with ties strictly in first-seen input order; the
output counts are descending; and both `n = 0` and an empty input give no
rows. -/
theorem compute_species_counts_spec (rows : List OccRow) (n : Nat) :
    (compute_species_counts rows n).length = min n (distinctSpeciesCount rows) ∧
    ((value_counts rows).take n).Pairwise (fun a b =>
      b.registros < a.registros ∨ (a.registros = b.registros ∧ a.firstIdx < b.firstIdx)) ∧
    (compute_species_counts rows n).Pairwise (fun a b => b.2 ≤ a.2) ∧
    compute_species_counts rows 0 = [] ∧
    compute_species_counts [] n = [] := by
  refine ⟨?_, ?_, ?_, rfl, ?_⟩
  · simp [compute_species_counts, List.length_take, value_counts_length]
  · exact (value_counts_sorted rows).sublist (List.take_sublist n _)
  · unfold compute_species_counts
    rw [List.pairwise_map]
    refine ((value_counts_sorted rows).sublist (List.take_sublist n _)).imp fun h => ?_
    rcases h with h | ⟨h, _⟩
    · exact Nat.le_of_lt h
    · exact Nat.le_of_eq h.symm
  · simp [compute_species_counts, value_counts, keyedCounts, especies, firstSeen,
      firstSeenAux, withIdx, List.take_nil]

/-- Witness for C4 on a concrete table: two species, a tie broken in
first-seen order, truncation to each requested length. -/
theorem compute_species_counts_spec_witness :
    (compute_species_counts exFilterRows 1).length = min 1 (distinctSpeciesCount exFilterRows) ∧
    (compute_species_counts exFilterRows 10).length =
      min 10 (distinctSpeciesCount exFilterRows) ∧
    compute_species_counts exFilterRows 10 =
      [("Crocodylus acutus", 1), ("Caiman crocodilus", 1)] :=
  ⟨(compute_species_counts_spec exFilterRows 1).1,
   (compute_species_counts_spec exFilterRows 10).1, by decide⟩

/-- Claim C10: a row whose species is null contributes to no count — the
whole species aggregation is unchanged by adding such a row — and every
species key the aggregator outputs is the non-null species of some input
row, so null never appears as a key. -/
theorem null_species_ignored (rows : List OccRow) (r : OccRow) (n : Nat)
    (h : r.especie = none) :
    compute_species_counts (r :: rows) n = compute_species_counts rows n ∧
    value_counts (r :: rows) = value_counts rows ∧
    ∀ p ∈ compute_species_counts rows n, ∃ o ∈ rows, o.especie = some p.1 := by
  have hesp : especies (r :: rows) = especies rows := by
    simp [especies, List.filterMap_cons, h]
  refine ⟨?_, ?_, ?_⟩
  · simp [compute_species_counts, value_counts, hesp]
  · simp [value_counts, hesp]
  · intro p hp
    rcases List.mem_map.mp hp with ⟨e, he, rfl⟩
    have h1 : e ∈ value_counts rows := (List.take_sublist n _).subset he
    unfold value_counts at h1
    have h2 : e ∈ keyedCounts (especies rows) := (List.mem_insertionSort vcLE).mp h1
    unfold keyedCounts at h2
    rcases List.mem_map.mp h2 with ⟨q, hq, heq⟩
    have h4 : q.1 ∈ especies rows := firstSeen_subset _ (fst_mem_of_mem_withIdx hq)
    rcases List.mem_filterMap.mp h4 with ⟨o, ho, hoe⟩
    refine ⟨o, ho, ?_⟩
    cases heq
    exact hoe

/-- Witness for C10: prepending a null-species row to a one-row table
leaves the aggregation unchanged, and the aggregation of the combined
table evaluates to the single non-null species. -/
theorem null_species_ignored_witness :
    (⟨none, none, none⟩ : OccRow).especie = none ∧
    compute_species_counts [⟨none, none, none⟩, ⟨some "Crocodylus porosus", none, none⟩] 5 =
      compute_species_counts [⟨some "Crocodylus porosus", none, none⟩] 5 ∧
    compute_species_counts [⟨none, none, none⟩, ⟨some "Crocodylus porosus", none, none⟩] 5 =
      [("Crocodylus porosus", 1)] :=
  ⟨rfl,
   (null_species_ignored [⟨some "Crocodylus porosus", none, none⟩] ⟨none, none, none⟩ 5 rfl).1,
   by decide⟩

end Croc
